import Mathlib

/-!
Verification of the ioc-austin robot IOC against its specification.

The definitions below are shallow embeddings of the Python source:

* `austin/alive.py` — heartbeat encoder and transmitter
* `src/austin/austin.py` — the global robot lock
* `src/austin/samples.py` — sample slot load/unload orchestration
* `src/austin/driver.py` — robot driver (pickl/placel, send_and_receive)

Machine integers are modelled as `Int`/`Nat` with explicit range checks
matching Python's `struct.pack` behaviour; fallible code returns `Option`
or carries an explicit error field.
-/

namespace IocAustin

/-! ## Heartbeat encoder (`austin/alive.py`, `heartbeat_message`) -/

/-- Python's built-in `round` (banker's rounding: ties go to the even
integer), modelled on rationals. -/
def pyRound (q : ℚ) : ℤ :=
  if q - ⌊q⌋ < 1/2 then ⌊q⌋
  else if 1/2 < q - ⌊q⌋ then ⌊q⌋ + 1
  else if ⌊q⌋ % 2 = 0 then ⌊q⌋ else ⌊q⌋ + 1

/-- Big-endian 4-byte encoding of a natural number, as produced by
`struct.pack(">L", m)` for an in-range value. -/
def toBE4 (m : ℕ) : List ℕ :=
  [m / 16777216 % 256, m / 65536 % 256, m / 256 % 256, m % 256]

/-- Big-endian 2-byte encoding of a natural number, as produced by
`struct.pack(">H", m)` for an in-range value. -/
def toBE2 (m : ℕ) : List ℕ :=
  [m / 256 % 256, m % 256]

/-- Big-endian value of a byte string. -/
def fromBE (l : List ℕ) : ℕ :=
  l.foldl (fun a b => a * 256 + b) 0

/-- `struct.pack(">L", n)`: 4 big-endian bytes, raising (modelled as
`none`) when the value is out of the unsigned 32-bit range. -/
def pack32 (n : ℤ) : Option (List ℕ) :=
  if 0 ≤ n ∧ n < 4294967296 then some (toBE4 n.toNat) else none

/-- `struct.pack(">H", n)`: 2 big-endian bytes, raising (modelled as
`none`) when the value is out of the unsigned 16-bit range. -/
def pack16 (n : ℤ) : Option (List ℕ) :=
  if 0 ≤ n ∧ n < 65536 then some (toBE2 n.toNat) else none

/-- `str.encode("ascii")`: the identity on byte values below 128,
raising (modelled as `none`) otherwise.  The IOC name is modelled as its
list of code points. -/
def encodeAscii (name : List ℕ) : Option (List ℕ) :=
  if ∀ b ∈ name, b < 128 then some name else none

def EPICS_TIME_CORRECTION : ℤ := -631152000

def PROTOCOL_VERSION : ℤ := 5

/-- `heartbeat_message` from `austin/alive.py`: builds the UDP heartbeat
datagram for the EPICS alive record protocol. -/
def heartbeat_message (magic_number : ℤ) (incarnation current_time : ℚ)
    (heartbeat_value period flags return_port user_message : ℤ)
    (ioc_name : List ℕ) : Option (List ℕ) := do
  let p1 ← pack32 magic_number
  let p2 ← pack16 PROTOCOL_VERSION
  let p3 ← pack32 (pyRound incarnation + EPICS_TIME_CORRECTION)
  let p4 ← pack32 (pyRound current_time + EPICS_TIME_CORRECTION)
  let p5 ← pack32 heartbeat_value
  let p6 ← pack16 period
  let p7 ← pack16 flags
  let p8 ← pack16 return_port
  let p9 ← pack32 user_message
  let nm ← encodeAscii ioc_name
  return p1 ++ p2 ++ p3 ++ p4 ++ p5 ++ p6 ++ p7 ++ p8 ++ p9 ++ nm ++ [0]

/-- `epics_time` from `austin/alive.py`. -/
def epics_time (unix_time : ℚ) : ℚ := unix_time + 631152000

/-- The fields carried by a heartbeat datagram, as recovered by a
decoder.  Timestamps are in integer seconds (the epoch-correction shift
already undone). -/
structure HeartbeatFields where
  magicNumber : ℤ
  incarnation : ℤ
  currentTime : ℤ
  counter : ℤ
  period : ℤ
  flags : ℤ
  returnPort : ℤ
  userMessage : ℤ
  iocName : List ℕ
deriving DecidableEq

/-- Reference decoder for the heartbeat wire layout of the spec: 4-byte
magic, 2-byte version (must be 5), two 4-byte epoch-shifted timestamps,
4-byte counter, 2-byte period, flags and return port, 4-byte user
message, ASCII name, trailing null byte. -/
def heartbeat_decode : List ℕ → Option HeartbeatFields
  | m0 :: m1 :: m2 :: m3 :: v0 :: v1 :: i0 :: i1 :: i2 :: i3 ::
    t0 :: t1 :: t2 :: t3 :: c0 :: c1 :: c2 :: c3 :: d0 :: d1 ::
    f0 :: f1 :: r0 :: r1 :: u0 :: u1 :: u2 :: u3 :: rest =>
    if fromBE [v0, v1] = 5 ∧ rest.getLast? = some 0 then
      some
        { magicNumber := fromBE [m0, m1, m2, m3]
          incarnation := (fromBE [i0, i1, i2, i3] : ℤ) + 631152000
          currentTime := (fromBE [t0, t1, t2, t3] : ℤ) + 631152000
          counter := fromBE [c0, c1, c2, c3]
          period := fromBE [d0, d1]
          flags := fromBE [f0, f1]
          returnPort := fromBE [r0, r1]
          userMessage := fromBE [u0, u1, u2, u3]
          iocName := rest.dropLast }
    else none
  | _ => none

lemma pack32_of_range {n : ℤ} (h0 : 0 ≤ n) (h1 : n < 4294967296) :
    pack32 n = some (toBE4 n.toNat) := by
  rw [pack32, if_pos ⟨h0, h1⟩]

lemma pack16_of_range {n : ℤ} (h0 : 0 ≤ n) (h1 : n < 65536) :
    pack16 n = some (toBE2 n.toNat) := by
  rw [pack16, if_pos ⟨h0, h1⟩]

lemma fromBE_toBE4 {m : ℕ} (h : m < 4294967296) : fromBE (toBE4 m) = m := by
  simp only [toBE4, fromBE, List.foldl]
  omega

lemma fromBE_toBE2 {m : ℕ} (h : m < 65536) : fromBE (toBE2 m) = m := by
  simp only [toBE2, fromBE, List.foldl]
  omega

lemma toBE4_length (m : ℕ) : (toBE4 m).length = 4 := rfl

lemma toBE2_length (m : ℕ) : (toBE2 m).length = 2 := rfl

/-- Claim C1: for every in-range field tuple, `heartbeat_message`
produces exactly, in big-endian order, the 4-byte magic number, the
2-byte constant 5, the two 4-byte epoch-corrected rounded timestamps,
the 4-byte counter, 2-byte period, flags and return port, the 4-byte
user message, the ASCII name bytes and one trailing null byte; its
length is 28 + len(name) + 1 and the reference decoder recovers every
field, with the timestamps rounded to integer seconds. -/
theorem heartbeat_message_layout_roundtrip
    (magic : ℤ) (inc cur : ℚ) (cnt period flags port umsg : ℤ)
    (name : List ℕ)
    (hmag0 : 0 ≤ magic) (hmag1 : magic < 4294967296)
    (hinc0 : 0 ≤ pyRound inc + EPICS_TIME_CORRECTION)
    (hinc1 : pyRound inc + EPICS_TIME_CORRECTION < 4294967296)
    (hcur0 : 0 ≤ pyRound cur + EPICS_TIME_CORRECTION)
    (hcur1 : pyRound cur + EPICS_TIME_CORRECTION < 4294967296)
    (hcnt0 : 0 ≤ cnt) (hcnt1 : cnt < 4294967296)
    (hprd0 : 0 ≤ period) (hprd1 : period < 65536)
    (hflg0 : 0 ≤ flags) (hflg1 : flags < 65536)
    (hport0 : 0 ≤ port) (hport1 : port < 65536)
    (humsg0 : 0 ≤ umsg) (humsg1 : umsg < 4294967296)
    (hname : ∀ b ∈ name, b < 128) :
    ∃ msg,
      heartbeat_message magic inc cur cnt period flags port umsg name =
        some msg ∧
      msg = toBE4 magic.toNat ++ toBE2 5 ++
        toBE4 (pyRound inc + EPICS_TIME_CORRECTION).toNat ++
        toBE4 (pyRound cur + EPICS_TIME_CORRECTION).toNat ++
        toBE4 cnt.toNat ++ toBE2 period.toNat ++ toBE2 flags.toNat ++
        toBE2 port.toNat ++ toBE4 umsg.toNat ++ name ++ [0] ∧
      msg.length = 28 + name.length + 1 ∧
      heartbeat_decode msg = some
        { magicNumber := magic
          incarnation := pyRound inc
          currentTime := pyRound cur
          counter := cnt
          period := period
          flags := flags
          returnPort := port
          userMessage := umsg
          iocName := name } := by
  refine ⟨_, ?_, rfl, ?_, ?_⟩
  · rw [heartbeat_message,
      pack32_of_range hmag0 hmag1,
      pack16_of_range (by norm_num [PROTOCOL_VERSION]) (by norm_num [PROTOCOL_VERSION]),
      pack32_of_range hinc0 hinc1,
      pack32_of_range hcur0 hcur1,
      pack32_of_range hcnt0 hcnt1,
      pack16_of_range hprd0 hprd1,
      pack16_of_range hflg0 hflg1,
      pack16_of_range hport0 hport1,
      pack32_of_range humsg0 humsg1,
      encodeAscii, if_pos hname]
    rfl
  · simp [List.length_append, toBE4, toBE2]
    omega
  · have hver : toBE2 (PROTOCOL_VERSION).toNat = [0, 5] := by decide
    have hm : fromBE (toBE4 magic.toNat) = magic.toNat :=
      fromBE_toBE4 (by omega)
    have hi : fromBE (toBE4 (pyRound inc + EPICS_TIME_CORRECTION).toNat) =
        (pyRound inc + EPICS_TIME_CORRECTION).toNat :=
      fromBE_toBE4 (by omega)
    have hc : fromBE (toBE4 (pyRound cur + EPICS_TIME_CORRECTION).toNat) =
        (pyRound cur + EPICS_TIME_CORRECTION).toNat :=
      fromBE_toBE4 (by omega)
    have hn : fromBE (toBE4 cnt.toNat) = cnt.toNat :=
      fromBE_toBE4 (by omega)
    have hp : fromBE (toBE2 period.toNat) = period.toNat :=
      fromBE_toBE2 (by omega)
    have hf : fromBE (toBE2 flags.toNat) = flags.toNat :=
      fromBE_toBE2 (by omega)
    have hr : fromBE (toBE2 port.toNat) = port.toNat :=
      fromBE_toBE2 (by omega)
    have hu : fromBE (toBE4 umsg.toNat) = umsg.toNat :=
      fromBE_toBE4 (by omega)
    simp only [toBE4, toBE2, List.cons_append, List.nil_append] at *
    rw [heartbeat_decode]
    rw [if_pos]
    · simp only [Option.some.injEq, HeartbeatFields.mk.injEq]
      refine ⟨?_, ?_, ?_, ?_, ?_, ?_, ?_, ?_, ?_⟩ <;>
        simp only [hm, hi, hc, hn, hp, hf, hr, hu, List.dropLast_concat]
      all_goals
        simp only [EPICS_TIME_CORRECTION] at *
        omega
    · constructor
      · decide
      · rw [List.getLast?_concat]

lemma pyRound_intCast (n : ℤ) : pyRound (n : ℚ) = n := by
  rw [pyRound, if_pos]
  · exact Int.floor_intCast n
  · rw [Int.floor_intCast]
    norm_num

/-- Witness for C1 at a concrete field tuple. -/
theorem heartbeat_message_layout_roundtrip_witness :
    (∀ b ∈ [65], b < 128) ∧
    ∃ msg,
      heartbeat_message 305419896 ((700000000 : ℤ) : ℚ)
        ((700000001 : ℤ) : ℚ) 1 15 1 5678 0 [65] = some msg ∧
      msg = toBE4 (305419896 : ℤ).toNat ++ toBE2 5 ++
        toBE4 (pyRound ((700000000 : ℤ) : ℚ) + EPICS_TIME_CORRECTION).toNat ++
        toBE4 (pyRound ((700000001 : ℤ) : ℚ) + EPICS_TIME_CORRECTION).toNat ++
        toBE4 (1 : ℤ).toNat ++ toBE2 (15 : ℤ).toNat ++ toBE2 (1 : ℤ).toNat ++
        toBE2 (5678 : ℤ).toNat ++ toBE4 (0 : ℤ).toNat ++ [65] ++ [0] ∧
      msg.length = 28 + [65].length + 1 ∧
      heartbeat_decode msg = some
        { magicNumber := 305419896
          incarnation := pyRound ((700000000 : ℤ) : ℚ)
          currentTime := pyRound ((700000001 : ℤ) : ℚ)
          counter := 1
          period := 15
          flags := 1
          returnPort := 5678
          userMessage := 0
          iocName := [65] } :=
  ⟨by decide,
    heartbeat_message_layout_roundtrip 305419896 _ _ 1 15 1 5678 0 [65]
      (by norm_num) (by norm_num)
      (by rw [pyRound_intCast]; norm_num [EPICS_TIME_CORRECTION])
      (by rw [pyRound_intCast]; norm_num [EPICS_TIME_CORRECTION])
      (by rw [pyRound_intCast]; norm_num [EPICS_TIME_CORRECTION])
      (by rw [pyRound_intCast]; norm_num [EPICS_TIME_CORRECTION])
      (by norm_num) (by norm_num) (by norm_num) (by norm_num)
      (by norm_num) (by norm_num) (by norm_num) (by norm_num)
      (by norm_num) (by norm_num) (by decide)⟩

/-! ## Heartbeat transmitter (`austin/alive.py`, `AliveGroup`) -/

/-- The PV fields of `AliveGroup` that `server_address` and
`send_heartbeat` read or write. -/
structure AliveState where
  hrtbt : Bool
  itrig : Bool
  isup : Bool
  val : ℤ
  hmag : ℤ
  hprd : ℤ
  iport : ℤ
  msg : ℤ
  raddr : String
  rport : ℤ
  aaddr : String
  aport : ℤ
  incarnation : ℚ

/-- `AliveGroup.server_address`: pick the remote host, preferring a
valid auxiliary host over a valid primary host. -/
def server_address (s : AliveState) : Option String × Option ℤ :=
  let invalid_addrs : List String := ["", "invalid AHOST", "invalid RHOST"]
  let ap : Option String × Option ℤ := (none, none)
  let ap := if s.raddr ∉ invalid_addrs ∧ s.rport > 0
    then (some s.raddr, some s.rport) else ap
  let ap := if s.aaddr ∉ invalid_addrs ∧ s.aport > 0
    then (some s.aaddr, some s.aport) else ap
  ap

/-- A heartbeat datagram together with the address and port it was
sent to. -/
structure Datagram where
  payload : List ℕ
  addr : String
  port : ℤ

/-- `AliveGroup.send_heartbeat`, one tick.  `now` is the current wall
clock, `sendOk` tells whether the UDP transmission succeeds or raises;
the result is the new state and the list of datagrams actually sent.
An exception anywhere (message encoding or transmission) leaves the
state unchanged, since `self.val.write` runs only after the send. -/
def send_heartbeat (s : AliveState) (now : ℚ) (sendOk : Bool) :
    AliveState × List Datagram :=
  if s.hrtbt = false then (s, [])
  else
    let flags : ℤ := (if s.itrig then 1 else 0) + (if s.isup then 2 else 0)
    let next_heartbeat := s.val + 1
    match heartbeat_message s.hmag s.incarnation (epics_time now)
        next_heartbeat s.hprd flags s.iport s.msg [] with
    | none => (s, [])
    | some message =>
      match server_address s with
      | (some addr, some port) =>
        if sendOk then
          ({ s with val := next_heartbeat }, [⟨message, addr, port⟩])
        else (s, [])
      | _ => (s, [])

/-- Claim C2: one tick of `send_heartbeat` leaves the counter unchanged
and sends nothing when heartbeating is disabled, when no valid target is
selected, or when the transmission raises; and increments the counter by
exactly 1 when a datagram is transmitted successfully. -/
theorem send_heartbeat_counter (s : AliveState) (now : ℚ) (sendOk : Bool) :
    (s.hrtbt = false → send_heartbeat s now sendOk = (s, [])) ∧
    ((server_address s).1 = none ∨ (server_address s).2 = none →
      (send_heartbeat s now sendOk).1.val = s.val ∧
      (send_heartbeat s now sendOk).2 = []) ∧
    ((send_heartbeat s now sendOk).2 ≠ [] →
      (send_heartbeat s now sendOk).1.val = s.val + 1) ∧
    (sendOk = false →
      (send_heartbeat s now sendOk).1.val = s.val ∧
      (send_heartbeat s now sendOk).2 = []) := by
  refine ⟨fun h => by rw [send_heartbeat, if_pos h], ?_, ?_, ?_⟩ <;>
    rw [send_heartbeat] <;>
    rcases hb : s.hrtbt with _ | _ <;> simp only [if_pos rfl, reduceIte] <;>
    try simp
  all_goals
    rcases hmsg : heartbeat_message s.hmag s.incarnation (epics_time now)
        (s.val + 1) s.hprd ((if s.itrig then 1 else 0) + (if s.isup then 2 else 0))
        s.iport s.msg [] with _ | message <;>
      simp only []
  all_goals
    rcases ha : server_address s with ⟨oa, op⟩
    rcases oa with _ | addr <;> rcases op with _ | port <;>
      rcases sendOk with _ | _ <;> simp_all

/-- A concrete disabled transmitter state, used as witness input. -/
def aliveStateDisabled : AliveState :=
  { hrtbt := false, itrig := false, isup := false, val := 0,
    hmag := 305419896, hprd := 15, iport := 0, msg := 0,
    raddr := "", rport := 0, aaddr := "", aport := 0, incarnation := 0 }

/-- Witness for C2 at a concrete disabled state. -/
theorem send_heartbeat_counter_witness :
    aliveStateDisabled.hrtbt = false ∧
    send_heartbeat aliveStateDisabled 0 true = (aliveStateDisabled, []) :=
  ⟨rfl, (send_heartbeat_counter aliveStateDisabled 0 true).1 rfl⟩

/-- A (host, port) pair is a valid heartbeat target: the address is not
one of the invalid sentinels and the port is positive. -/
def validHostPair (addr : String) (port : ℤ) : Prop :=
  addr ∉ (["", "invalid AHOST", "invalid RHOST"] : List String) ∧ port > 0

instance (addr : String) (port : ℤ) : Decidable (validHostPair addr port) := by
  unfold validHostPair
  infer_instance

/-- Claim C3: `server_address` returns the auxiliary pair whenever it is
valid, regardless of the primary pair; the primary pair when only it is
valid; and `(None, None)` when neither is valid. -/
theorem server_address_selection (s : AliveState) :
    (validHostPair s.aaddr s.aport →
      server_address s = (some s.aaddr, some s.aport)) ∧
    (¬ validHostPair s.aaddr s.aport → validHostPair s.raddr s.rport →
      server_address s = (some s.raddr, some s.rport)) ∧
    (¬ validHostPair s.aaddr s.aport → ¬ validHostPair s.raddr s.rport →
      server_address s = (none, none)) := by
  unfold validHostPair
  refine ⟨fun hA => ?_, fun hA hR => ?_, fun hA hR => ?_⟩ <;>
    rw [server_address]
  · rw [if_pos hA]
  · rw [if_neg hA, if_pos hR]
  · rw [if_neg hA, if_neg hR]

/-- A concrete transmitter state matching the spec's example: primary
(127.0.0.1, 88) valid, auxiliary (127.0.0.2, 89) valid. -/
def aliveStateBothValid : AliveState :=
  { hrtbt := true, itrig := false, isup := false, val := 0,
    hmag := 305419896, hprd := 15, iport := 0, msg := 0,
    raddr := "127.0.0.1", rport := 88, aaddr := "127.0.0.2", aport := 89,
    incarnation := 0 }

/-- Witness for C3: with both pairs valid, the auxiliary is selected. -/
theorem server_address_selection_witness :
    validHostPair aliveStateBothValid.aaddr aliveStateBothValid.aport ∧
    server_address aliveStateBothValid = (some "127.0.0.2", some 89) :=
  ⟨by decide, (server_address_selection aliveStateBothValid).1 (by decide)⟩

/-! ## Robot run lock (`src/austin/austin.py`, `AustinIOC.lock/unlock`,
and the identical `RobotIOC.lock/unlock` in `austin/robot.py`) -/

inductive RobotErr
  | robotBusy
deriving DecidableEq

/-- The IOC-wide mutex `_lock` together with the `busy` PV. -/
structure RobotLockState where
  locked : Bool
  busy : ℤ
deriving DecidableEq

/-- `AustinIOC.lock`: a non-blocking `Lock.acquire(blocking=False)`;
on contention it raises `RobotBusy` immediately and mutates nothing,
otherwise it takes the lock and writes `busy = 1`. -/
def lock (s : RobotLockState) : RobotLockState × Option RobotErr :=
  if s.locked then (s, some .robotBusy)
  else ({ locked := true, busy := 1 }, none)

/-- `AustinIOC.unlock`: releases the mutex and writes `busy = 0`;
releasing an unheld `threading.Lock` raises, modelled as `none`. -/
def unlock (s : RobotLockState) : Option RobotLockState :=
  if s.locked then some { locked := false, busy := 0 } else none

/-- Claim C4: from a free permit, `lock` succeeds and sets `busy = 1`; a
second `lock` without an intervening `unlock` fails with `RobotBusy` at
once, leaving the holder and `busy` unchanged; after `unlock` the busy
flag is 0 and a subsequent `lock` succeeds. -/
theorem lock_unlock_cycle (s : RobotLockState) (h : s.locked = false) :
    (lock s).2 = none ∧ (lock s).1.busy = 1 ∧ (lock s).1.locked = true ∧
    lock (lock s).1 = ((lock s).1, some .robotBusy) ∧
    unlock (lock s).1 = some { locked := false, busy := 0 } ∧
    (lock { locked := false, busy := 0 }).2 = none ∧
    (lock { locked := false, busy := 0 }).1.busy = 1 := by
  simp [lock, unlock, h]

/-- Witness for C4 at the initial free state. -/
theorem lock_unlock_cycle_witness :
    (⟨false, 0⟩ : RobotLockState).locked = false ∧
    ((lock ⟨false, 0⟩).2 = none ∧ (lock ⟨false, 0⟩).1.busy = 1 ∧
      (lock ⟨false, 0⟩).1.locked = true ∧
      lock (lock ⟨false, 0⟩).1 = ((lock ⟨false, 0⟩).1, some .robotBusy) ∧
      unlock (lock ⟨false, 0⟩).1 = some { locked := false, busy := 0 } ∧
      (lock { locked := false, busy := 0 }).2 = none ∧
      (lock { locked := false, busy := 0 }).1.busy = 1) :=
  ⟨rfl, lock_unlock_cycle ⟨false, 0⟩ rfl⟩

/-! ## Sample slots (`src/austin/samples.py`, `SampleGroup` /
`SamplesGroup`) -/

/-- A Cartesian pose (x, y, z, rx, ry, rz). -/
structure Pose where
  x : ℚ
  y : ℚ
  z : ℚ
  rx : ℚ
  ry : ℚ
  rz : ℚ
deriving DecidableEq

/-- One driver call issued by the orchestrator through
`actions.run_action`.  A pose argument is `Option` because the Python
passes `self.stage_position` / `self.sample_position` through unchecked
(an uncalibrated `None` would only fail inside the driver). -/
inductive SampleCmd
  | pickl (p : Option Pose)
  | placel (p : Option Pose)
  | movel (p : Option Pose)
deriving DecidableEq

/-- The per-slot state of a `SampleGroup`: the presence flag and the
calibration attributes. -/
structure SlotState where
  present : Bool
  sample_position : Option Pose
  stage_position : Option Pose
  waypoints : List Pose
deriving DecidableEq

/-- The state shared across slots in `SamplesGroup`. -/
structure SamplesState where
  current_sample : Option ℕ
  slots : ℕ → SlotState

inductive SampleErr
  | slotNotEmpty
  | slotEmpty
  | notCalibrated
deriving DecidableEq

/-- Outcome of a load/unload putter: the driver calls issued before
returning or raising, the resulting state, and the raised error if
any. -/
structure ActionResult where
  trace : List SampleCmd
  state : SamplesState
  error : Option SampleErr

/-- `SampleGroup.unload` (triggered with value `On` when `value` is
true): check the shelf slot is empty, traverse waypoints forward, pick
from the stage, traverse in reverse, place at the sample position,
clear `current_sample`, return to the first waypoint, mark the slot
present. -/
def unload (sys : SamplesState) (i : ℕ) (value : Bool) : ActionResult :=
  if value = false then ⟨[], sys, none⟩
  else
    let slot := sys.slots i
    if slot.present then ⟨[], sys, some .slotNotEmpty⟩
    else
      ⟨slot.waypoints.map (fun w => SampleCmd.movel (some w)) ++
          [SampleCmd.pickl slot.stage_position] ++
          slot.waypoints.reverse.map (fun w => SampleCmd.movel (some w)) ++
          [SampleCmd.placel slot.sample_position] ++
          [SampleCmd.movel slot.waypoints.head?],
        { current_sample := none,
          slots := Function.update sys.slots i { slot with present := true } },
        none⟩

/-- `SamplesGroup.unload_current_sample`: no-op when no sample is
recorded on the stage, otherwise unload that sample. -/
def unload_current_sample (sys : SamplesState) (value : Bool) : ActionResult :=
  if value = false then ⟨[], sys, none⟩
  else
    match sys.current_sample with
    | none => ⟨[], sys, none⟩
    | some j => unload sys j true

/-- `SampleGroup.load` (triggered with value `On` when `value` is true):
check calibration (stage first, then sample position), check the slot is
not empty, unload whatever occupies the stage, then pick from the sample
position, traverse waypoints forward, place at the stage position,
record `current_sample`, and traverse waypoints in reverse.  Note that
`load` never writes the slot's presence flag, although a trailing
comment in the source announces a presence update. -/
def load (sys : SamplesState) (i : ℕ) (value : Bool) : ActionResult :=
  if value = false then ⟨[], sys, none⟩
  else
    let slot := sys.slots i
    if slot.stage_position = none then ⟨[], sys, some .notCalibrated⟩
    else if slot.sample_position = none then ⟨[], sys, some .notCalibrated⟩
    else if slot.present = false then ⟨[], sys, some .slotEmpty⟩
    else
      let r := unload_current_sample sys true
      if r.error.isSome then ⟨r.trace, r.state, r.error⟩
      else
        ⟨r.trace ++ [SampleCmd.pickl slot.sample_position] ++
            slot.waypoints.map (fun w => SampleCmd.movel (some w)) ++
            [SampleCmd.placel slot.stage_position] ++
            slot.waypoints.reverse.map (fun w => SampleCmd.movel (some w)),
          { r.state with current_sample := some i },
          none⟩

/-- Claim C5: a load triggered with On fails with the not-calibrated
error when the stage or sample position is unset (checked first, even on
an empty slot), and with the slot-empty error when the presence flag
reports empty; in both failure cases no driver command is issued and
`current_sample` is unchanged. -/
theorem load_precondition_failures (sys : SamplesState) (i : ℕ) :
    ((sys.slots i).stage_position = none ∨ (sys.slots i).sample_position = none →
      load sys i true = ⟨[], sys, some .notCalibrated⟩) ∧
    ((sys.slots i).stage_position ≠ none → (sys.slots i).sample_position ≠ none →
      (sys.slots i).present = false →
      load sys i true = ⟨[], sys, some .slotEmpty⟩) := by
  constructor
  · rintro (h | h) <;> rw [load] <;> simp only [Bool.true_eq_false, reduceIte]
    · rw [if_pos h]
    · by_cases hs : (sys.slots i).stage_position = none
      · rw [if_pos hs]
      · rw [if_neg hs, if_pos h]
  · intro hs hp he
    rw [load]
    simp only [Bool.true_eq_false, reduceIte]
    rw [if_neg hs, if_neg hp, if_pos he]

/-- A system whose slot 0 has no calibrated stage position. -/
def uncalibratedSys : SamplesState :=
  { current_sample := none,
    slots := fun _ =>
      { present := true, sample_position := some ⟨1, 0, 0, 0, 0, 0⟩,
        stage_position := none, waypoints := [] } }

/-- Witness for C5: loading an uncalibrated slot fails with the
not-calibrated error, issues no command and leaves the state alone. -/
theorem load_precondition_failures_witness :
    ((uncalibratedSys.slots 0).stage_position = none ∨
      (uncalibratedSys.slots 0).sample_position = none) ∧
    load uncalibratedSys 0 true = ⟨[], uncalibratedSys, some .notCalibrated⟩ :=
  ⟨Or.inl rfl, (load_precondition_failures uncalibratedSys 0).1 (Or.inl rfl)⟩

/-- Slot 0 loaded on the stage (shelf empty), slot 1 calibrated and
present, shared stage position and waypoints. -/
def c6Sys : SamplesState :=
  { current_sample := some 0,
    slots := fun k =>
      if k = 0 then
        { present := false, sample_position := some ⟨1, 0, 0, 0, 0, 0⟩,
          stage_position := some ⟨3, 0, 0, 0, 0, 0⟩,
          waypoints := [⟨4, 0, 0, 0, 0, 0⟩, ⟨5, 0, 0, 0, 0, 0⟩] }
      else
        { present := true, sample_position := some ⟨2, 0, 0, 0, 0, 0⟩,
          stage_position := some ⟨3, 0, 0, 0, 0, 0⟩,
          waypoints := [⟨4, 0, 0, 0, 0, 0⟩, ⟨5, 0, 0, 0, 0, 0⟩] } }

/-- Claim C6, evaluated at a concrete occupied-stage scenario: the full
unload of slot 0 (waypoints forward, pick from stage, waypoints reverse,
place at slot 0's sample position, plus the final return to the first
waypoint) runs before the first motion command of slot 1's load; the end
state records slot 1 as the stage occupant and marks slot 0 present
again.  The last conjunct exhibits the divergence from the claim: slot
1's presence flag is left `true`, because `load` returns without
writing it even though its trailing comment announces a presence
update (`unload` does perform the corresponding write). -/
theorem load_occupied_stage_divergence :
    (load c6Sys 1 true).error = none ∧
    (load c6Sys 1 true).trace =
      [SampleCmd.movel (some ⟨4, 0, 0, 0, 0, 0⟩),
       SampleCmd.movel (some ⟨5, 0, 0, 0, 0, 0⟩),
       SampleCmd.pickl (some ⟨3, 0, 0, 0, 0, 0⟩),
       SampleCmd.movel (some ⟨5, 0, 0, 0, 0, 0⟩),
       SampleCmd.movel (some ⟨4, 0, 0, 0, 0, 0⟩),
       SampleCmd.placel (some ⟨1, 0, 0, 0, 0, 0⟩),
       SampleCmd.movel (some ⟨4, 0, 0, 0, 0, 0⟩),
       SampleCmd.pickl (some ⟨2, 0, 0, 0, 0, 0⟩),
       SampleCmd.movel (some ⟨4, 0, 0, 0, 0, 0⟩),
       SampleCmd.movel (some ⟨5, 0, 0, 0, 0, 0⟩),
       SampleCmd.placel (some ⟨3, 0, 0, 0, 0, 0⟩),
       SampleCmd.movel (some ⟨5, 0, 0, 0, 0, 0⟩),
       SampleCmd.movel (some ⟨4, 0, 0, 0, 0, 0⟩)] ∧
    (load c6Sys 1 true).state.current_sample = some 1 ∧
    ((load c6Sys 1 true).state.slots 0).present = true ∧
    ((load c6Sys 1 true).state.slots 1).present = true := by
  decide

/-! ## Robot driver pick/place (`src/austin/driver.py`,
`RobotDriver.pickl` / `RobotDriver.placel`) -/

/-- One primitive command issued by the driver: a Cartesian move, a
relative joint move, or a gripper move. -/
inductive DriverCmd
  | moveL (p : Pose) (acc vel : ℚ)
  | moveJRel (joints : List ℚ) (acc vel : ℚ)
  | gripperMove (pos vel frc : ℚ)
deriving DecidableEq

/-- `RobotDriver.pickl`: lift the goal by 0.235 in z, compute the
approach pose (board offsets when the lifted goal has positive y and
squared planar radius above 0.15, plain vertical offset otherwise),
then move above, open the gripper, move to the lifted goal, close the
gripper, rotate the wrist by 0.087 rad, and move back above. -/
def pickl (pick_goal : Pose) (acc vel : ℚ)
    (gripper_pos_opn gripper_pos_cls gripper_vel gripper_frc : ℚ) :
    List DriverCmd :=
  let pick_goal := { pick_goal with z := pick_goal.z + 0.235 }
  let is_board := pick_goal.y > 0
  let outside_range := pick_goal.x ^ 2 + pick_goal.y ^ 2 > 0.15
  let above_goal :=
    if outside_range ∧ is_board then
      { pick_goal with
        y := pick_goal.y - 0.0762, z := pick_goal.z + 0.134,
        rx := pick_goal.rx + 0.103, ry := pick_goal.ry - 0.104,
        rz := pick_goal.rz + 0.151 }
    else { pick_goal with z := pick_goal.z + 0.134 }
  [DriverCmd.moveL above_goal acc vel,
   DriverCmd.gripperMove gripper_pos_opn gripper_vel gripper_frc,
   DriverCmd.moveL pick_goal acc vel,
   DriverCmd.gripperMove gripper_pos_cls gripper_vel gripper_frc,
   DriverCmd.moveJRel [0, 0, 0, 0, 0, 0.087] acc vel,
   DriverCmd.moveL above_goal acc vel]

set_option linter.unusedVariables false in
/-- `RobotDriver.placel`: lift the goal by 0.237 in z, compute the
approach pose (same zone predicate as `pickl`, with a 0.132 vertical
offset), then move above, move to the lifted goal, open the gripper,
and move back above.  The close-position parameter is accepted but, as
in the source, never used. -/
def placel (place_goal : Pose) (acc vel : ℚ)
    (gripper_pos_opn gripper_pos_cls gripper_vel gripper_frc : ℚ) :
    List DriverCmd :=
  let place_goal := { place_goal with z := place_goal.z + 0.237 }
  let is_board := place_goal.y > 0
  let outside_range := place_goal.x ^ 2 + place_goal.y ^ 2 > 0.15
  let above_goal :=
    if outside_range ∧ is_board then
      { place_goal with
        y := place_goal.y - 0.0762, z := place_goal.z + 0.132,
        rx := place_goal.rx + 0.103, ry := place_goal.ry - 0.104,
        rz := place_goal.rz + 0.151 }
    else { place_goal with z := place_goal.z + 0.132 }
  [DriverCmd.moveL above_goal acc vel,
   DriverCmd.moveL place_goal acc vel,
   DriverCmd.gripperMove gripper_pos_opn gripper_vel gripper_frc,
   DriverCmd.moveL above_goal acc vel]

/-- Lift a pose vertically by `d`. -/
def liftZ (p : Pose) (d : ℚ) : Pose := { p with z := p.z + d }

/-- The board-zone predicate both `pickl` and `placel` apply to the
lifted goal: squared planar radius above 0.15 and positive y. -/
def board_zone (p : Pose) : Prop := p.x ^ 2 + p.y ^ 2 > 0.15 ∧ p.y > 0

instance (p : Pose) : Decidable (board_zone p) := by
  unfold board_zone
  infer_instance

/-- The board-region approach offsets of `pickl`. -/
def pick_above_board (p : Pose) : Pose :=
  { p with
    y := p.y - 0.0762, z := p.z + 0.134, rx := p.rx + 0.103,
    ry := p.ry - 0.104, rz := p.rz + 0.151 }

/-- The plain vertical approach offset of `pickl`. -/
def pick_above_plain (p : Pose) : Pose := { p with z := p.z + 0.134 }

/-- The board-region approach offsets of `placel`. -/
def place_above_board (p : Pose) : Pose :=
  { p with
    y := p.y - 0.0762, z := p.z + 0.132, rx := p.rx + 0.103,
    ry := p.ry - 0.104, rz := p.rz + 0.151 }

/-- The plain vertical approach offset of `placel`. -/
def place_above_plain (p : Pose) : Pose := { p with z := p.z + 0.132 }

/-- Counterexample to claim C7 as stated: at the origin target, `pickl`
does not emit the five-command approach / open / contact / close /
retreat bracket alone — it also issues a relative wrist rotation, so the
emitted sequence differs from the claimed one. -/
theorem pickl_bracket_counterexample :
    pickl ⟨0, 0, 0, 0, 0, 0⟩ 1 1 120 200 120 50 ≠
      [DriverCmd.moveL ⟨0, 0, 0.369, 0, 0, 0⟩ 1 1,
       DriverCmd.gripperMove 120 120 50,
       DriverCmd.moveL ⟨0, 0, 0.235, 0, 0, 0⟩ 1 1,
       DriverCmd.gripperMove 200 120 50,
       DriverCmd.moveL ⟨0, 0, 0.369, 0, 0, 0⟩ 1 1] := by
  intro h
  have h6 : (pickl ⟨0, 0, 0, 0, 0, 0⟩ 1 1 120 200 120 50).length = 6 := rfl
  rw [h] at h6
  simp at h6

/-- Claim C7 as amended: for every target and parameter set, `pickl`
emits exactly approach move, gripper open, contact move, gripper close,
a relative 0.087 rad wrist rotation, and the retreat to the approach
pose; `placel` emits exactly approach move, contact move, gripper open,
retreat. -/
theorem pickl_placel_sequences (goal : Pose) (acc vel opn cls gvel gfrc : ℚ) :
    pickl goal acc vel opn cls gvel gfrc =
      [DriverCmd.moveL (if board_zone (liftZ goal 0.235)
          then pick_above_board (liftZ goal 0.235)
          else pick_above_plain (liftZ goal 0.235)) acc vel,
       DriverCmd.gripperMove opn gvel gfrc,
       DriverCmd.moveL (liftZ goal 0.235) acc vel,
       DriverCmd.gripperMove cls gvel gfrc,
       DriverCmd.moveJRel [0, 0, 0, 0, 0, 0.087] acc vel,
       DriverCmd.moveL (if board_zone (liftZ goal 0.235)
          then pick_above_board (liftZ goal 0.235)
          else pick_above_plain (liftZ goal 0.235)) acc vel] ∧
    placel goal acc vel opn cls gvel gfrc =
      [DriverCmd.moveL (if board_zone (liftZ goal 0.237)
          then place_above_board (liftZ goal 0.237)
          else place_above_plain (liftZ goal 0.237)) acc vel,
       DriverCmd.moveL (liftZ goal 0.237) acc vel,
       DriverCmd.gripperMove opn gvel gfrc,
       DriverCmd.moveL (if board_zone (liftZ goal 0.237)
          then place_above_board (liftZ goal 0.237)
          else place_above_plain (liftZ goal 0.237)) acc vel] := by
  constructor <;>
    simp only [pickl, placel, liftZ, board_zone, pick_above_board,
      pick_above_plain, place_above_board, place_above_plain]

/-- Counterexample to claim C8 as stated: the target (1, -1, 0, 0, 0, 0)
has squared planar radius 2 > 0.15, yet `pickl` uses the plain vertical
offset for it (its y is not positive), not the board offsets. -/
theorem approach_rule_counterexample :
    ((1 : ℚ) ^ 2 + (-1 : ℚ) ^ 2 > 0.15) ∧
    (pickl ⟨1, -1, 0, 0, 0, 0⟩ 1 1 120 200 120 50).head? =
      some (DriverCmd.moveL
        (pick_above_plain (liftZ ⟨1, -1, 0, 0, 0, 0⟩ 0.235)) 1 1) ∧
    pick_above_plain (liftZ ⟨1, -1, 0, 0, 0, 0⟩ 0.235) ≠
      pick_above_board (liftZ ⟨1, -1, 0, 0, 0, 0⟩ 0.235) := by
  refine ⟨by norm_num, ?_, ?_⟩
  · simp only [pickl]
    rw [if_neg]
    · rfl
    · rintro ⟨-, hb⟩
      norm_num at hb
  · intro h
    have hy := congrArg Pose.y h
    simp only [pick_above_plain, pick_above_board, liftZ] at hy
    norm_num at hy

/-- Claim C8 as amended: which approach-offset rule `pickl` and `placel`
apply is determined solely by the conjunction of the squared-planar-
radius test (x² + y² > 0.15) and the positive-y test on the target:
board offsets when both hold, plain vertical offset otherwise. -/
theorem approach_offset_rule (goal : Pose) (acc vel opn cls gvel gfrc : ℚ) :
    (pickl goal acc vel opn cls gvel gfrc).head? =
      some (DriverCmd.moveL
        (if goal.x ^ 2 + goal.y ^ 2 > 0.15 ∧ goal.y > 0
          then pick_above_board (liftZ goal 0.235)
          else pick_above_plain (liftZ goal 0.235)) acc vel) ∧
    (placel goal acc vel opn cls gvel gfrc).head? =
      some (DriverCmd.moveL
        (if goal.x ^ 2 + goal.y ^ 2 > 0.15 ∧ goal.y > 0
          then place_above_board (liftZ goal 0.237)
          else place_above_plain (liftZ goal 0.237)) acc vel) := by
  constructor <;>
    simp only [pickl, placel, liftZ, pick_above_board, pick_above_plain,
      place_above_board, place_above_plain, List.head?]

/-! ## Command channel (`src/austin/driver.py`,
`RobotDriver.send_and_receive` / `RobotDriver.get_reply`) -/

/-- An exception the transport may raise on a write or a single-byte
read. -/
inductive Fault
  | reset
  | abort
  | brokenPipe
  | timeout
  | otherErr
deriving DecidableEq

/-- The four conditions caught by `send_and_receive` and re-raised as
`RobotDisconnected`. -/
def Fault.isConnLoss : Fault → Bool
  | .reset => true
  | .abort => true
  | .brokenPipe => true
  | .timeout => true
  | .otherErr => false

/-- One `sock.recv(1)` outcome: a delivered byte or a raised fault. -/
inductive RecvEvent
  | byte (b : ℕ)
  | fail (f : Fault)
deriving DecidableEq

/-- What the `get_reply` loop does on a given event stream. -/
inductive ReplyOutcome
  | line (bytes : List ℕ) (rest : List RecvEvent)
  | fault (f : Fault)
  | hangs
deriving DecidableEq

/-- `RobotDriver.get_reply`: read one byte at a time, collecting
everything up to (and consuming) the first newline.  A stream exhausted
without a newline models a connection that never delivers one (for
example repeated empty reads from a closed socket): the `while True`
loop never breaks, which we record as `ReplyOutcome.hangs`. -/
def get_reply : List RecvEvent → ReplyOutcome
  | [] => .hangs
  | .fail f :: _ => .fault f
  | .byte b :: rest =>
    if b = 10 then .line [] rest
    else
      match get_reply rest with
      | .line bs r => .line (b :: bs) r
      | o => o

/-- What `send_and_receive` returns or raises. -/
inductive SendOutcome
  | reply (bytes : List ℕ)
  | disconnected
  | raised (f : Fault)
  | hangs
deriving DecidableEq

/-- `RobotDriver.send_and_receive`: append one newline to the command,
write it, then read one reply line; a reset, abort, broken-pipe or
timeout condition from the write or the read is re-raised as
`RobotDisconnected`, while any other exception propagates unchanged.
The first component is the byte string handed to `sock.sendall`. -/
def send_and_receive (command : List ℕ) (writeFault : Option Fault)
    (stream : List RecvEvent) : List ℕ × SendOutcome :=
  (command ++ [10],
    match writeFault with
    | some f => if f.isConnLoss then .disconnected else .raised f
    | none =>
      match get_reply stream with
      | .line bs _ => .reply bs
      | .fault f => if f.isConnLoss then .disconnected else .raised f
      | .hangs => .hangs)

lemma get_reply_clean_line (bs : List ℕ) (rest : List RecvEvent)
    (h : ∀ b ∈ bs, b ≠ 10) :
    get_reply (bs.map RecvEvent.byte ++ RecvEvent.byte 10 :: rest) =
      .line bs rest := by
  induction bs with
  | nil => simp [get_reply]
  | cons b bs ih =>
    have hb : b ≠ 10 := h b (List.mem_cons_self b bs)
    have ih2 := ih (fun x hx => h x (List.mem_cons_of_mem b hx))
    simp [get_reply, hb, ih2]

lemma get_reply_no_newline (bs : List ℕ) (h : 10 ∉ bs) :
    get_reply (bs.map RecvEvent.byte) = .hangs := by
  induction bs with
  | nil => simp [get_reply]
  | cons b bs ih =>
    have hb : b ≠ 10 := fun hb => h (hb ▸ List.mem_cons_self b bs)
    have hbs : 10 ∉ bs := fun hx => h (List.mem_cons_of_mem b hx)
    simp [get_reply, hb, ih hbs]

lemma exists_clean_split (bs : List ℕ) (hmem : 10 ∈ bs) :
    ∃ pre rest, (∀ b ∈ pre, b ≠ 10) ∧ bs = pre ++ 10 :: rest := by
  induction bs with
  | nil => simp at hmem
  | cons b bs ih =>
    by_cases hb : b = 10
    · subst hb
      exact ⟨[], bs, by simp, rfl⟩
    · have hmem2 : 10 ∈ bs := by
        rcases List.mem_cons.mp hmem with h | h
        · exact absurd h.symm hb
        · exact h
      obtain ⟨pre, rest, hpre, hsplit⟩ := ih hmem2
      refine ⟨b :: pre, rest, ?_, by rw [hsplit, List.cons_append]⟩
      intro x hx
      rcases List.mem_cons.mp hx with rfl | hx2
      · exact hb
      · exact hpre x hx2

/-- Claim C9: `send_and_receive` writes the command with exactly one
appended newline; when the write succeeds and the stream delivers a
clean reply line it returns the bytes up to but excluding the first
newline; and it raises `RobotDisconnected` exactly when the write or the
read raises a reset, abort, broken-pipe or timeout condition. -/
theorem send_and_receive_contract (command : List ℕ) (writeFault : Option Fault)
    (stream : List RecvEvent) :
    (send_and_receive command writeFault stream).1 = command ++ [10] ∧
    (∀ bs rest, (∀ b ∈ bs, b ≠ 10) →
      stream = bs.map RecvEvent.byte ++ RecvEvent.byte 10 :: rest →
      writeFault = none →
      (send_and_receive command writeFault stream).2 = .reply bs) ∧
    ((send_and_receive command writeFault stream).2 = .disconnected ↔
      (∃ f, writeFault = some f ∧ f.isConnLoss = true) ∨
      (writeFault = none ∧
        ∃ f, get_reply stream = .fault f ∧ f.isConnLoss = true)) := by
  refine ⟨rfl, ?_, ?_⟩
  · intro bs rest hclean hstream hwf
    subst hstream hwf
    simp only [send_and_receive, get_reply_clean_line bs rest hclean]
  · rcases writeFault with _ | f
    · rcases hg : get_reply stream with ⟨bs, r⟩ | f | _ <;>
        simp [send_and_receive, hg]
    · simp only [send_and_receive]
      cases hf : f.isConnLoss <;> simp [hf]

/-- Witness for C9 at a concrete command and clean two-byte reply. -/
theorem send_and_receive_contract_witness :
    (∀ b ∈ [79, 75], b ≠ 10) ∧
    (send_and_receive [82] none
        ([79, 75].map RecvEvent.byte ++ RecvEvent.byte 10 ::
          [RecvEvent.byte 88])).2 = .reply [79, 75] :=
  ⟨by decide,
    (send_and_receive_contract [82] none
        ([79, 75].map RecvEvent.byte ++ RecvEvent.byte 10 ::
          [RecvEvent.byte 88])).2.1 [79, 75] [RecvEvent.byte 88]
      (by decide) rfl rfl⟩

/-- Claim C10: on a fault-free byte stream the `get_reply` loop
terminates exactly when the stream contains a newline, in which case it
consumes precisely the bytes up to and including the first newline and
returns the ones before it; a stream that never yields a newline leaves
the loop running forever (`ReplyOutcome.hangs`). -/
theorem get_reply_termination (bs : List ℕ) :
    ((∃ line rest, get_reply (bs.map RecvEvent.byte) = .line line rest) ↔
      10 ∈ bs) ∧
    (∀ pre rest, (∀ b ∈ pre, b ≠ 10) → bs = pre ++ 10 :: rest →
      get_reply (bs.map RecvEvent.byte) =
        .line pre (rest.map RecvEvent.byte)) ∧
    (10 ∉ bs → get_reply (bs.map RecvEvent.byte) = .hangs) := by
  have hsplit : ∀ pre rest, (∀ b ∈ pre, b ≠ 10) → bs = pre ++ 10 :: rest →
      get_reply (bs.map RecvEvent.byte) =
        .line pre (rest.map RecvEvent.byte) := by
    intro pre rest hpre h
    subst h
    have h2 := get_reply_clean_line pre (rest.map RecvEvent.byte) hpre
    simpa using h2
  refine ⟨⟨?_, ?_⟩, hsplit, get_reply_no_newline bs⟩
  · rintro ⟨line, rest, h⟩
    by_contra hmem
    rw [get_reply_no_newline bs hmem] at h
    exact ReplyOutcome.noConfusion h
  · intro hmem
    obtain ⟨pre, rest, hpre, hs⟩ := exists_clean_split bs hmem
    exact ⟨pre, rest.map RecvEvent.byte, hsplit pre rest hpre hs⟩

/-- Witness for C10 at a concrete stream containing a newline. -/
theorem get_reply_termination_witness :
    (∀ b ∈ [72, 73], b ≠ 10) ∧
    get_reply (([72, 73] ++ 10 :: [88]).map RecvEvent.byte) =
      .line [72, 73] ([88].map RecvEvent.byte) :=
  ⟨by decide,
    (get_reply_termination ([72, 73] ++ 10 :: [88])).2.1 [72, 73] [88]
      (by decide) rfl⟩

end IocAustin
